import Mathlib

/-!
Verification development for the balloon-operator trajectory and filling code.

The definitions below are shallow embeddings of the Python sources
(balloon_operator/filling.py, balloon_operator/parachute.py,
balloon_operator/trajectory_predictor.py).  Machine floats are idealised as
exact rationals where the source only uses field operations and comparisons,
and as real numbers where the source uses sqrt, log or exp.  External
collaborators (scipy grid interpolators, the srtm elevation source, the
model-data download) are modelled as function parameters, exactly at the
call boundary where the source invokes them.
-/

set_option maxHeartbeats 1000000

namespace BalloonOperator

/-! ### Parameter lookup (filling.py, lookupParameters) -/

/-- Embedding of lookupParameters from filling.py: collect the indices whose
key column equals the requested name (np.where); if the number of hits is not
exactly one, return None, otherwise return the row at the unique hit. -/
def lookupParameters {α β : Type} [DecidableEq α] (rows : List β) (keyf : β → α)
    (name : α) : Option β :=
  let ind := (List.finRange rows.length).filter (fun i => keyf (rows.get i) = name)
  match ind with
  | [i] => some (rows.get i)
  | _ => none

/-! ### Hourly forecast sweep (trajectory_predictor.py, hourlyForecast)

The loop body retrieves model data for one launch hour and, when data is
available, appends one landing waypoint for that hour.  Data retrieval and
the per-hour flight prediction are external effects; they are abstracted
into the availability predicate, and a landing waypoint is represented by
the hour index that produced it.  The control flow (break on missing data,
the final test on the loop variable, and the indexing loop over
range(forecast_length) that rebuilds the output) is embedded faithfully. -/

inductive HourlyError : Type
  | nameError : HourlyError
  | indexError : HourlyError
deriving DecidableEq

/-- The for-loop of hourlyForecast: walk the hour indices, breaking at the
first hour without data; returns the final value of the loop variable
i_hour together with the collected landing waypoints. -/
def hourlyGo (avail : ℕ → Bool) : List ℕ → List ℕ → ℕ → ℕ × List ℕ
  | [], acc, iLast => (iLast, acc)
  | h :: rest, acc, _iLast =>
      if avail h then hourlyGo avail rest (acc ++ [h]) h else (h, acc)

/-- Embedding of hourlyForecast from trajectory_predictor.py.  A None result
models hourly_track = None (whole-sweep failure); nameError models the
unbound loop variable when forecast_length is zero; indexError models the
IndexError raised by the output loop for ind in range(forecast_length)
indexing individual_tracks when fewer runs succeeded. -/
def hourlyForecast (forecast_length : ℕ) (avail : ℕ → Bool) :
    Except HourlyError (Option (List ℕ)) :=
  if forecast_length = 0 then .error .nameError
  else
    let r := hourlyGo avail (List.range forecast_length) [] 0
    if r.1 = 0 then .ok none
    else if r.2.length < forecast_length then .error .indexError
    else .ok (some r.2)

/-! ### Descent detection (trajectory_predictor.py, detectDescent) -/

/-- The running fold of np.argmax: keep the first index attaining the
maximum, updating only on a strictly larger value. -/
def argmaxGo : List ℚ → ℕ → ℕ → ℚ → ℕ
  | [], _i, bi, _bv => bi
  | x :: xs, i, bi, bv =>
      if bv < x then argmaxGo xs (i + 1) i x else argmaxGo xs (i + 1) bi bv

/-- Embedding of np.argmax over a list of rationals (first index attaining
the maximum; zero on the empty list, which the source never queries). -/
def argmaxIdx : List ℚ → ℕ
  | [] => 0
  | x :: xs => argmaxGo xs 1 0 x

/-- Embedding of detectDescent from trajectory_predictor.py: with at least
three tracked points, test that the differences of the last three elevations
are all nonpositive and that the maximum elevation exceeds the launch
altitude by more than 100 m; if so return the index of the highest point. -/
def detectDescent (pts : List ℚ) (launch_altitude : ℚ) : Option ℕ :=
  if 3 ≤ pts.length then
    let lastThree := pts.drop (pts.length - 3)
    let indMax := argmaxIdx pts
    let maxHeight := pts.getD indMax 0
    if lastThree.Chain' (· ≥ ·) ∧ launch_altitude + 100 < maxHeight then
      some indMax
    else none
  else none

/-! ### Trajectory integration (trajectory_predictor.py, predictTrajectory)

The loop is embedded for the geographic case (model projection None), with
the scipy RegularGridInterpolator wind lookups and the srtm ground-elevation
lookup abstracted as Option-valued function parameters of the environment
(a None value models the caught ValueError, respectively a missing
elevation).  The vertical-coordinate profile lev, which the source computes
upstream of the loop with an external curve fit, enters as an input
array. -/

structure TrajPoint where
  lat : ℚ
  lon : ℚ
  elevation : ℚ
  time : ℚ
deriving DecidableEq, Repr

structure TrajEnv where
  interpU : ℚ → ℚ → ℚ → ℚ → Option ℚ
  interpV : ℚ → ℚ → ℚ → ℚ → Option ℚ
  getElevation : ℚ → ℚ → Option ℚ
  tRef : ℚ
  tEnd : ℚ

/-- The advection loop of predictTrajectory for the indices ind of 1 and
beyond: displace the position by the interpolated wind, query the ground
elevation, and on ground contact while on a descending profile compute the
timestep fraction, shift position and time by it, append the final point
and stop.  A failed wind interpolation skips the index (continue). -/
def predictGo (E : TrajEnv) (dt alt lev : ℕ → ℚ) (n : ℕ) :
    List ℕ → ℚ → ℚ → List TrajPoint
  | [], _x, _y => []
  | ind :: rest, x, y =>
      let delta_t := dt ind - dt (ind - 1)
      let gt0 := dt ind - E.tRef
      let gt1 := if E.tEnd < gt0 then E.tEnd else gt0
      let grid_time := if gt1 < 0 then 0 else gt1
      match E.interpU grid_time (lev ind) x y, E.interpV grid_time (lev ind) x y with
      | some u, some v =>
          let x1 := x + delta_t * u
          let y1 := y + delta_t * v
          match E.getElevation y1 x1 with
          | some se =>
              if alt (n - 1) < alt 0 ∧ alt ind ≤ se then
                let below_ground := se - alt ind
                let timestep_fraction := below_ground / (alt ind - alt (ind - 1))
                let x2 := x1 - timestep_fraction * delta_t * u
                let y2 := y1 - timestep_fraction * delta_t * v
                [⟨y2, x2, alt ind, dt ind - timestep_fraction * delta_t⟩]
              else ⟨y1, x1, alt ind, dt ind⟩ :: predictGo E dt alt lev n rest x1 y1
          | none => ⟨y1, x1, alt ind, dt ind⟩ :: predictGo E dt alt lev n rest x1 y1
      | _, _ => predictGo E dt alt lev n rest x y

/-- Embedding of predictTrajectory from trajectory_predictor.py (geographic
branch): the first index appends the start position unchanged, the following
indices run the advection loop. -/
def predictTrajectory (E : TrajEnv) (dt alt lev : ℕ → ℚ) (n : ℕ)
    (lon_start lat_start : ℚ) : List TrajPoint :=
  if n = 0 then []
  else ⟨lat_start, lon_start, alt 0, dt 0⟩ ::
    predictGo E dt alt lev n ((List.range n).drop 1) lon_start lat_start

/-- Modelled from the spec: the landing time obtained by back-solving the
fraction of the last time step at which the ground crossing occurred and
rolling the time of the last step back by exactly that fraction. -/
def specGroundCrossingTime (tPrev tCur aPrev aCur se : ℚ) : ℚ :=
  tCur - (se - aCur) / (aPrev - aCur) * (tCur - tPrev)

/-! ### Balloon performance and filling (filling.py)

These routines use sqrt and log, so they are embedded over the real
numbers. -/

/-- Gravitational acceleration from constants.py. -/
def gravity : ℝ := 9.80665

/-- Air density from constants.py (density of air, kg per cubic metre). -/
def airDensity : ℝ := 1.205

/-- The air density model constant of balloonPerformance (scale height used
for the burst height estimate). -/
def airDensityModel : ℝ := 7238.3

inductive FillGas : Type
  | hydrogen : FillGas
  | helium : FillGas
deriving DecidableEq

/-- Gas densities at STP from filling.py. -/
def gasDensity : FillGas → ℝ
  | .hydrogen => 0.0899
  | .helium => 0.1786

/-- One row of the balloon parameter table. -/
structure BalloonParams where
  weight : ℝ
  burst_diameter : ℝ
  drag_coefficient : ℝ

/-- Embedding of np.sign on the reals. -/
noncomputable def npSign (x : ℝ) : ℝ :=
  if 0 < x then 1 else if x < 0 then -1 else 0

/-- Embedding of balloonPerformance from filling.py, in the branch where the
launch radius is given (the launch volume is then derived from it).  Returns
the triple of neutral lift, ascent velocity and burst height. -/
noncomputable def balloonPerformance (bp : BalloonParams) (payload_weight : ℝ)
    (launch_radius : ℝ) (fill_gas : FillGas)
    (burst_height_correction_factor : ℝ) : ℝ × ℝ × ℝ :=
  let launch_volume := 4 / 3 * Real.pi * launch_radius ^ 3
  let burst_volume := 4 / 3 * Real.pi * (bp.burst_diameter / 2) ^ 3
  let burst_height := -airDensityModel * Real.log (launch_volume / burst_volume)
  let gross_lift := launch_volume * (airDensity - gasDensity fill_gas)
  let free_lift := gross_lift - (bp.weight / 1000 + payload_weight)
  let free_lift_force := free_lift * gravity
  let ascent_velocity := npSign free_lift_force *
    Real.sqrt (|free_lift_force| /
      (1 / 2 * bp.drag_coefficient * airDensity * Real.pi * launch_radius ^ 2))
  let neutral_lift := payload_weight + free_lift
  (neutral_lift, ascent_velocity, burst_height * burst_height_correction_factor)

inductive FillError : Type
  | bisectionNotConverged : FillError
  | invalidConfiguration : FillError
deriving DecidableEq

/-- The bisection loop of balloonFilling from filling.py, with the remaining
iteration count as fuel (the source runs for i_loop in range(100) and raises
when i_loop equals 99 after the loop, even when the convergence test fired
at that last iteration). -/
noncomputable def bisectGo (bp : BalloonParams) (payload_weight ascent_velocity : ℝ)
    (fill_gas : FillGas) (corr : ℝ) :
    ℕ → ℝ → ℝ → Except FillError (ℝ × ℝ × ℝ)
  | 0, _rmin, _rmax => .error .bisectionNotConverged
  | n + 1, rmin, rmax =>
      let launch_radius := (rmin + rmax) / 2
      let res := balloonPerformance bp payload_weight launch_radius fill_gas corr
      if |res.2.1 - ascent_velocity| < 1 / 100 then
        if n = 0 then .error .bisectionNotConverged
        else .ok (launch_radius, res.1, res.2.2)
      else if ascent_velocity < res.2.1 then
        bisectGo bp payload_weight ascent_velocity fill_gas corr n rmin launch_radius
      else
        bisectGo bp payload_weight ascent_velocity fill_gas corr n launch_radius rmax

/-- Embedding of balloonFilling from filling.py: bisection on the launch
radius over the interval from 0 to 3 metres with at most 100 iterations. -/
noncomputable def balloonFilling (bp : BalloonParams) (payload_weight ascent_velocity : ℝ)
    (fill_gas : FillGas) (corr : ℝ) : Except FillError (ℝ × ℝ × ℝ) :=
  bisectGo bp payload_weight ascent_velocity fill_gas corr 100 0 3

/-- One update of the bisection state (r_min, r_max) of balloonFilling: the
state is unchanged when the convergence test fires, otherwise the half not
containing the target is discarded. -/
noncomputable def bisectStep (bp : BalloonParams) (payload_weight ascent_velocity : ℝ)
    (fill_gas : FillGas) (corr : ℝ) (p : ℝ × ℝ) : ℝ × ℝ :=
  let launch_radius := (p.1 + p.2) / 2
  let res := balloonPerformance bp payload_weight launch_radius fill_gas corr
  if |res.2.1 - ascent_velocity| < 1 / 100 then p
  else if ascent_velocity < res.2.1 then (p.1, launch_radius)
  else (launch_radius, p.2)

/-- The convergence criterion of balloonFilling at the midpoint of a
bisection state. -/
noncomputable def bisectConv (bp : BalloonParams) (payload_weight ascent_velocity : ℝ)
    (fill_gas : FillGas) (corr : ℝ) (p : ℝ × ℝ) : Prop :=
  |(balloonPerformance bp payload_weight ((p.1 + p.2) / 2) fill_gas corr).2.1 -
    ascent_velocity| < 1 / 100

/-- The payload-reduction bisection loop of twoBalloonFilling from
filling.py (same loop shape as bisectGo, optimising the virtual payload
weight at the fixed descent-balloon radius). -/
noncomputable def twoBalloonGo (descBp : BalloonParams) (desc_radius ascent_velocity : ℝ)
    (fill_gas : FillGas) (corr : ℝ) : ℕ → ℝ → ℝ → Except FillError ℝ
  | 0, _pmin, _pmax => .error .bisectionNotConverged
  | n + 1, pmin, pmax =>
      let this_payload_weight := (pmin + pmax) / 2
      let res := balloonPerformance descBp this_payload_weight desc_radius fill_gas corr
      if |res.2.1 - ascent_velocity| < 1 / 100 then
        if n = 0 then .error .bisectionNotConverged
        else .ok this_payload_weight
      else if ascent_velocity < res.2.1 then
        twoBalloonGo descBp desc_radius ascent_velocity fill_gas corr n this_payload_weight pmax
      else
        twoBalloonGo descBp desc_radius ascent_velocity fill_gas corr n pmin this_payload_weight

/-- Embedding of twoBalloonFilling from filling.py: fill the descent balloon
for the negated descent velocity, bisect the virtual payload reduction over
the interval from -0.5 kg to the payload weight, then fill the ascent
balloon for the reduced payload. -/
noncomputable def twoBalloonFilling (ascBp descBp : BalloonParams)
    (payload_weight ascent_velocity descent_velocity : ℝ) (fill_gas : FillGas)
    (corr : ℝ) : Except FillError (ℝ × ℝ × ℝ × ℝ × ℝ × ℝ) :=
  match balloonFilling descBp payload_weight (-descent_velocity) fill_gas corr with
  | .error e => .error e
  | .ok desc =>
      match twoBalloonGo descBp desc.1 ascent_velocity fill_gas corr 100
          (-(1 / 2)) payload_weight with
      | .error e => .error e
      | .ok this_payload =>
          match balloonFilling ascBp (payload_weight - this_payload) ascent_velocity
              fill_gas corr with
          | .error e => .error e
          | .ok asc => .ok (asc.1, desc.1, asc.2.1, desc.2.1, asc.2.2, desc.2.2)

/-- The two-balloon safety-margin check of main in trajectory_predictor.py
(lines raising InvalidConfiguration): the descent-balloon burst height must
clear the cut altitude by 1000 m and the ascent-balloon burst height must
clear the cut altitude by 2000 m; then the cut altitude becomes the
ceiling. -/
noncomputable def mainTwoBalloonCheck (descent_burst_height ascent_burst_height
    cut_altitude : ℝ) : Except FillError ℝ :=
  if descent_burst_height < cut_altitude + 1000 then .error .invalidConfiguration
  else if ascent_burst_height < cut_altitude + 2000 then .error .invalidConfiguration
  else .ok cut_altitude

/-- The two-balloon branch of main in trajectory_predictor.py: run
twoBalloonFilling (with the default burst height correction factor) and
apply the safety-margin check to the resulting burst heights, yielding the
ceiling for the simulation. -/
noncomputable def mainTwoBalloonTopHeight (ascBp descBp : BalloonParams)
    (payload_weight ascent_velocity descent_velocity : ℝ) (fill_gas : FillGas)
    (cut_altitude : ℝ) : Except FillError ℝ :=
  match twoBalloonFilling ascBp descBp payload_weight ascent_velocity
      descent_velocity fill_gas 1 with
  | .error e => .error e
  | .ok r => mainTwoBalloonCheck r.2.2.2.2.2 r.2.2.2.2.1 cut_altitude

/-- A concrete ascent balloon used to exercise the two-balloon safety
check: 2000 g, burst diameter 3 e to the 21/20 metres, drag coefficient
0.5758. -/
noncomputable def c2AscBalloon : BalloonParams := ⟨2000, 3 * Real.exp (21 / 20), 0.5758⟩

/-- A concrete descent balloon used to exercise the two-balloon safety
check: 5635.5 g, burst diameter 3 e metres, drag coefficient 0.2878. -/
noncomputable def c2DescBalloon : BalloonParams := ⟨5635.5, 3 * Real.exp 1, 0.2878⟩

/-- Neutral lift of the descent balloon of the concrete two-balloon
scenario. -/
noncomputable def c2DescNeutralLift : ℝ :=
  9 / 2 * Real.pi * (airDensity - gasDensity .helium) - 5.6355

/-- Neutral lift of the ascent balloon of the concrete two-balloon
scenario. -/
noncomputable def c2AscNeutralLift : ℝ :=
  9 / 2 * Real.pi * (airDensity - gasDensity .helium) - 2

/-- A concrete balloon whose drag coefficient makes the ascent velocity at
launch radius 3/2 equal to exactly 1 m per s with zero balloon weight and
zero payload, and whose burst diameter 3 makes the burst height exactly
zero at that radius. -/
noncomputable def c4Balloon : BalloonParams :=
  ⟨0, 3, 4 * (airDensity - gasDensity .helium) * gravity / airDensity⟩

/-- A concrete balloon with an astronomically small drag coefficient, built
so that the filling bisection for target velocity 1 keeps halving the upper
radius bound and first meets the convergence criterion exactly at the 100th
midpoint. -/
noncomputable def c5Balloon : BalloonParams :=
  ⟨0, 3, 8 * (airDensity - gasDensity .helium) * gravity / (airDensity * 2 ^ 100)⟩

/-! ### Parachute descent (parachute.py) -/

/-- One row of the parachute parameter table. -/
structure ParachuteParams where
  diameter : ℝ
  drag_coefficient : ℝ

/-- The integration state of parachuteDescent: time, altitude, vertical
velocity. -/
structure DescState where
  t : ℝ
  z : ℝ
  s : ℝ

/-- Internal integration timestep delt of parachuteDescent. -/
def delt : ℝ := 0.2

/-- Local gravitational constant of parachute.py. -/
def gPara : ℝ := 9.81

/-- Air density at ground level used in parachute.py. -/
def rhoaPara : ℝ := 1.225

/-- Reference temperature (CIRA86 at 50 N) from parachute.py. -/
def tempPara : ℝ := 248.6

/-- Specific gas constant of dry air used in parachute.py. -/
def rsPara : ℝ := 287

/-- Scale height H of parachute.py. -/
noncomputable def hPara : ℝ := tempPara * rsPara / gPara

/-- The inputs of parachuteDescent that parametrise the equation of
motion. -/
structure DescParams where
  payload_weight : ℝ
  parachute : ParachuteParams
  payload_area : ℝ
  payload_drag_coefficient : ℝ

/-- The total drag term cdpara times paraarea plus cdbox times boxarea of
parachuteDescent. -/
noncomputable def dragArea (P : DescParams) : ℝ :=
  P.parachute.drag_coefficient * (Real.pi * P.parachute.diameter ^ 2 / 4) +
    P.payload_drag_coefficient * P.payload_area

/-- The acceleration of the parachute equation of motion at altitude z and
velocity s. -/
noncomputable def descAccel (P : DescParams) (z s : ℝ) : ℝ :=
  -gPara + 1 / (2 * P.payload_weight) * rhoaPara * Real.exp (-z / hPara) *
    dragArea P * s ^ 2

/-- One Runge-Kutta step of parachuteDescent, returning the four stage
vertical rates together with the next state. -/
noncomputable def rk4Data (P : DescParams) (st : DescState) :
    (ℝ × ℝ × ℝ × ℝ) × DescState :=
  let k1z := st.s
  let k1s := descAccel P st.z st.s
  let k2z := st.s + delt / 2 * k1s
  let k2s := descAccel P (st.z + delt / 2 * k1z) (st.s + delt / 2 * k1s)
  let k3z := st.s + delt / 2 * k2s
  let k3s := descAccel P (st.z + delt / 2 * k2z) (st.s + delt / 2 * k2s)
  let k4z := st.s + delt * k3s
  let k4s := descAccel P (st.z + delt * k3z) (st.s + delt * k3s)
  ((k1z, k2z, k3z, k4z),
    ⟨st.t + delt,
     st.z + delt / 6 * (k1z + 2 * k2z + 2 * k3z + k4z),
     st.s + delt / 6 * (k1s + 2 * k2s + 2 * k3s + k4s)⟩)

/-- The state update of one Runge-Kutta step of parachuteDescent. -/
noncomputable def rk4Step (P : DescParams) (st : DescState) : DescState :=
  (rk4Data P st).2

/-- All four stage vertical rates of a Runge-Kutta step are nonpositive. -/
noncomputable def stageZNonpos (P : DescParams) (st : DescState) : Prop :=
  (rk4Data P st).1.1 ≤ 0 ∧ (rk4Data P st).1.2.1 ≤ 0 ∧
    (rk4Data P st).1.2.2.1 ≤ 0 ∧ (rk4Data P st).1.2.2.2 ≤ 0

/-- Concrete drag-free descent parameters: payload 1 kg, parachute of
diameter zero with drag coefficient 1, payload area zero, payload drag
coefficient 1/4.  With zero total drag area the Runge-Kutta step is exact
free fall. -/
noncomputable def paraDragFree : DescParams := ⟨1, ⟨0, 1⟩, 0, 1 / 4⟩

inductive DescError : Type
  | solverDidNotTerminate : DescError
  | sliceStepZero : DescError
deriving DecidableEq

/-- The integration loop of parachuteDescent: record the current sample
unless the altitude has dropped below zero (then stop), and raise when the
iteration budget is exhausted without reaching ground. -/
noncomputable def descentLoop (P : DescParams) : ℕ → DescState →
    Except DescError (List DescState)
  | 0, _st => .error .solverDidNotTerminate
  | n + 1, st =>
      if st.z < 0 then .ok []
      else
        match descentLoop P n (rk4Step P st) with
        | .error e => .error e
        | .ok rest => .ok (st :: rest)

/-- Iteration cap of parachuteDescent. -/
def maxIter : ℕ := 10000000

/-- Embedding of np.round on the reals: round half to even. -/
noncomputable def roundHalfEven (x : ℝ) : ℤ :=
  if Int.fract x < 1 / 2 then ⌊x⌋
  else if 1 / 2 < Int.fract x then ⌊x⌋ + 1
  else if Even ⌊x⌋ then ⌊x⌋ else ⌊x⌋ + 1

/-- Python slicing with a positive step k: the elements at indices 0, k,
2 k and so on. -/
def everyKth {α : Type} (k : ℕ) : List α → List α
  | [] => []
  | x :: xs => x :: everyKth k (xs.drop (k - 1))
termination_by l => l.length
decreasing_by simp [List.length_drop]; omega

/-- Python slicing of the sample arrays with an integer step k: for a
positive step the elements at indices 0, k, 2 k and so on; for a negative
step the same walk over the reversed list. -/
def downsample (k : ℤ) (sts : List DescState) : List DescState :=
  if 0 < k then everyKth k.toNat sts else everyKth (-k).toNat sts.reverse

/-- Embedding of parachuteDescent from parachute.py: run the fixed-step
integration, then downsample the recorded samples by the rounded ratio of
the requested timestep to the internal step (Python slicing with that step,
which for a negative ratio walks the list backwards and for a zero ratio
raises), appending the terminal sample when downsampling dropped it.  The
three returned lists are the time, altitude and velocity arrays. -/
noncomputable def parachuteDescent (alt_start timestep payload_weight : ℝ)
    (parachute_parameters : ParachuteParams) (payload_area : ℝ)
    (payload_drag_coefficient : ℝ) (initial_velocity : ℝ) :
    Except DescError (List ℝ × List ℝ × List ℝ) :=
  match descentLoop
      ⟨payload_weight, parachute_parameters, payload_area, payload_drag_coefficient⟩
      maxIter ⟨0, alt_start, initial_velocity⟩ with
  | .error e => .error e
  | .ok sts =>
      match sts.getLast? with
      | none => .ok ([], [], [])
      | some lastSt =>
          if roundHalfEven (timestep / delt) = 0 then .error .sliceStepZero
          else
            if (downsample (roundHalfEven (timestep / delt)) sts).getLast?.map
                DescState.t = some lastSt.t then
              .ok ((downsample (roundHalfEven (timestep / delt)) sts).map DescState.t,
                (downsample (roundHalfEven (timestep / delt)) sts).map DescState.z,
                (downsample (roundHalfEven (timestep / delt)) sts).map DescState.s)
            else
              .ok (((downsample (roundHalfEven (timestep / delt)) sts) ++ [lastSt]).map
                  DescState.t,
                ((downsample (roundHalfEven (timestep / delt)) sts) ++ [lastSt]).map
                  DescState.z,
                ((downsample (roundHalfEven (timestep / delt)) sts) ++ [lastSt]).map
                  DescState.s)

/-! ### Theorems -/

/-- C8: evaluation of the hourly sweep at its failing inputs.  A sweep of
length one with model data available returns None for the aggregate track
(reported whole-sweep failure), because the final test i_hour equals 0 also
holds after one successful iteration; and a sweep of length two whose
second hour lacks data raises an IndexError instead of returning the
aggregate track of the one successful run. -/
theorem hourlyForecast_c8_bug :
    hourlyForecast 1 (fun _ => true) = .ok none ∧
      hourlyForecast 2 (fun n => n == 0) = .error .indexError := by
  constructor <;> rfl

/-- C1: evaluation of the trajectory integrator at a descending three-point
profile over flat terrain at elevation zero with constant unit eastward
wind.  The ground crossing happens seven tenths of a step before the last
grid time 20, but the emitted final point carries time 27 and longitude 27:
the computed timestep fraction is negative and the subtraction shifts the
landing point forward past the step instead of rolling it back.  The
spec-modelled back-solved crossing time is 13. -/
theorem predictTrajectory_c1_bug :
    predictTrajectory
        ⟨fun _ _ _ _ => some 1, fun _ _ _ _ => some 0, fun _ _ => some 0, 0, 1000⟩
        (fun i => if i = 0 then 0 else if i = 1 then 10 else 20)
        (fun i => if i = 0 then 100 else if i = 1 then 30 else -70)
        (fun _ => 0) 3 0 50 =
      [⟨50, 0, 100, 0⟩, ⟨50, 10, 30, 10⟩, ⟨50, 27, -70, 27⟩] ∧
    specGroundCrossingTime 10 20 30 (-70) 0 = 13 := by
  constructor
  · norm_num [predictTrajectory, predictGo, List.range_succ, TrajPoint.mk.injEq]
  · norm_num [specGroundCrossingTime]

/-- C9: the parameter lookup returns only matching rows, returns a row
whenever exactly one row of the table matches the key, and returns None
whenever no row matches. -/
theorem lookupParameters_c9 {α β : Type} [DecidableEq α] (rows : List β)
    (keyf : β → α) (name : α) :
    (∀ r, lookupParameters rows keyf name = some r → r ∈ rows ∧ keyf r = name) ∧
    ((rows.filter (fun r => keyf r = name)).length = 1 →
      (lookupParameters rows keyf name).isSome = true) ∧
    ((∀ r ∈ rows, ¬ keyf r = name) → lookupParameters rows keyf name = none) := by
  have hlen : ((List.finRange rows.length).filter
      (fun i => keyf (rows.get i) = name)).length =
      (rows.filter (fun r => keyf r = name)).length := by
    conv_rhs => rw [← List.finRange_map_get rows]
    rw [List.filter_map, List.length_map]
    rfl
  refine ⟨?_, ?_, ?_⟩
  · intro r h
    unfold lookupParameters at h
    rcases hind : (List.finRange rows.length).filter
        (fun i => keyf (rows.get i) = name) with _ | ⟨j, _ | ⟨j2, tl⟩⟩ <;>
      rw [hind] at h <;> simp at h
    have hj : j ∈ (List.finRange rows.length).filter
        (fun i => keyf (rows.get i) = name) := by rw [hind]; exact List.mem_singleton.mpr rfl
    have := List.of_mem_filter hj
    subst h
    exact ⟨rows.get_mem j.1 j.2, by simpa using this⟩
  · intro h1
    unfold lookupParameters
    rcases hind : (List.finRange rows.length).filter
        (fun i => keyf (rows.get i) = name) with _ | ⟨j, _ | ⟨j2, tl⟩⟩ <;>
      rw [hind] at hlen <;> rw [← hlen] at h1 <;> simp at h1 ⊢
  · intro h
    unfold lookupParameters
    have : (List.finRange rows.length).filter
        (fun i => keyf (rows.get i) = name) = [] := by
      rw [List.filter_eq_nil_iff]
      intro j _
      simpa using h (rows.get j) (rows.get_mem j.1 j.2)
    rw [this]

/-- Specification of the running fold of np.argmax: either no element
exceeds the incoming best value and the incoming best index is returned, or
the returned index points (relative to the index offset) at the first
element that strictly exceeds the incoming best value and is a maximum of
the list. -/
theorem argmaxGo_spec (l : List ℚ) (i bi : ℕ) (bv : ℚ) :
    (argmaxGo l i bi bv = bi ∧ ∀ x ∈ l, x ≤ bv) ∨
    (∃ j, ∃ hj : j < l.length, argmaxGo l i bi bv = i + j ∧ bv < l[j] ∧
      (∀ x ∈ l, x ≤ l[j]) ∧ ∀ k, ∀ hk : k < l.length, k < j → l[k] < l[j]) := by
  induction l generalizing i bi bv with
  | nil => exact Or.inl ⟨rfl, by simp⟩
  | cons x xs ih =>
    by_cases hx : bv < x
    · rcases ih (i + 1) i x with ⟨hres, hall⟩ | ⟨j, hj, hres, hlt, hall, hstrict⟩
      · refine Or.inr ⟨0, by simp, ?_, by simpa using hx, ?_, ?_⟩
        · simpa [argmaxGo, hx] using hres
        · intro y hy
          rcases List.mem_cons.mp hy with rfl | hy
          · simp
          · simpa using hall y hy
        · intro k hk hk0
          omega
      · refine Or.inr ⟨j + 1, by simpa using Nat.succ_lt_succ hj, ?_, ?_, ?_, ?_⟩
        · simp only [argmaxGo, if_pos hx]
          rw [hres]; omega
        · simpa using lt_trans hx hlt
        · intro y hy
          rcases List.mem_cons.mp hy with rfl | hy
          · simpa using le_of_lt hlt
          · simpa using hall y hy
        · intro k hk hkj
          cases k with
          | zero => simpa using hlt
          | succ k =>
            have hk2 : k < xs.length := by simpa using hk
            simpa using hstrict k hk2 (by omega)
    · rcases ih (i + 1) bi bv with ⟨hres, hall⟩ | ⟨j, hj, hres, hlt, hall, hstrict⟩
      · refine Or.inl ⟨by simpa [argmaxGo, hx] using hres, ?_⟩
        intro y hy
        rcases List.mem_cons.mp hy with rfl | hy
        · exact not_lt.mp hx
        · exact hall y hy
      · refine Or.inr ⟨j + 1, by simpa using Nat.succ_lt_succ hj, ?_, ?_, ?_, ?_⟩
        · simp only [argmaxGo, if_neg hx]
          rw [hres]; omega
        · simpa using hlt
        · intro y hy
          rcases List.mem_cons.mp hy with rfl | hy
          · simpa using (not_lt.mp hx).trans (le_of_lt hlt)
          · simpa using hall y hy
        · intro k hk hkj
          cases k with
          | zero => simpa using lt_of_le_of_lt (not_lt.mp hx) hlt
          | succ k =>
            have hk2 : k < xs.length := by simpa using hk
            simpa using hstrict k hk2 (by omega)

/-- Specification of the np.argmax embedding on a nonempty list: the result
is a valid index of a maximal element, and every earlier element is
strictly smaller. -/
theorem argmaxIdx_spec (l : List ℚ) (hl : l ≠ []) :
    ∃ hi : argmaxIdx l < l.length,
      (∀ x ∈ l, x ≤ l[argmaxIdx l]) ∧
      ∀ k, ∀ hk : k < l.length, k < argmaxIdx l → l[k] < l[argmaxIdx l] := by
  match l with
  | x :: xs =>
    rcases argmaxGo_spec xs 1 0 x with ⟨hres, hall⟩ | ⟨j, hj, hres, hlt, hall, hstrict⟩
    · have hidx : argmaxIdx (x :: xs) = 0 := hres
      refine ⟨by simp [hidx], ?_, ?_⟩
      · intro y hy
        rcases List.mem_cons.mp hy with rfl | hy
        · simp [hidx]
        · simpa [hidx] using hall y hy
      · intro k hk hk0
        rw [hidx] at hk0
        omega
    · have hidx : argmaxIdx (x :: xs) = j + 1 := by
        show argmaxGo xs 1 0 x = j + 1
        rw [hres]
        omega
      refine ⟨by simpa [hidx] using Nat.succ_lt_succ hj, ?_, ?_⟩
      · intro y hy
        rcases List.mem_cons.mp hy with rfl | hy
        · simpa [hidx] using le_of_lt hlt
        · simpa [hidx] using hall y hy
      · intro k hk hkj
        rw [hidx] at hkj
        cases k with
        | zero => simpa [hidx] using hlt
        | succ k =>
          have hk2 : k < xs.length := by simpa using hk
          simpa [hidx] using hstrict k hk2 (by omega)

/-- C3: the live descent test reports a descent, returning index i, exactly
when the track has at least three points, the last three elevations are
non-increasing, and i is the first index of a maximal elevation which
exceeds the launch altitude by more than 100 m. -/
theorem detectDescent_c3 (pts : List ℚ) (la : ℚ) (i : ℕ) :
    detectDescent pts la = some i ↔
      3 ≤ pts.length ∧
      (∃ hi : i < pts.length,
        (∀ x ∈ pts, x ≤ pts[i]) ∧
        (∀ k, ∀ hk : k < pts.length, k < i → pts[k] < pts[i]) ∧
        la + 100 < pts[i]) ∧
      ∀ j, ∀ hj : j + 1 < pts.length, pts.length - 3 ≤ j → pts[j + 1] ≤ pts[j] := by
  by_cases h3 : 3 ≤ pts.length
  · have hne : pts ≠ [] := by
      intro h
      rw [h] at h3
      simp at h3
    obtain ⟨hm, hmax, hfirst⟩ := argmaxIdx_spec pts hne
    have hdl : (pts.drop (pts.length - 3)).length = 3 := by
      rw [List.length_drop]
      omega
    have hchain : (pts.drop (pts.length - 3)).Chain' (· ≥ ·) ↔
        ∀ j, ∀ hj : j + 1 < pts.length, pts.length - 3 ≤ j → pts[j + 1] ≤ pts[j] := by
      rw [List.chain'_iff_get]
      constructor
      · intro h j hj hj3
        have hd : j - (pts.length - 3) < (pts.drop (pts.length - 3)).length - 1 := by
          omega
        have h2 := h (j - (pts.length - 3)) hd
        simp only [List.get_eq_getElem, List.getElem_drop, Fin.val_mk] at h2
        have e1 : pts.length - 3 + (j - (pts.length - 3)) = j := by omega
        have e2 : pts.length - 3 + (j - (pts.length - 3) + 1) = j + 1 := by omega
        rw [getElem_congr e1, getElem_congr e2] at h2
        exact h2
      · intro h jd hd
        simp only [List.get_eq_getElem, List.getElem_drop, Fin.val_mk]
        have e2 : pts.length - 3 + (jd + 1) = pts.length - 3 + jd + 1 := by omega
        rw [getElem_congr e2]
        exact h (pts.length - 3 + jd) (by omega) (by omega)
    constructor
    · intro h
      rw [detectDescent, if_pos h3] at h
      by_cases hcond : (pts.drop (pts.length - 3)).Chain' (· ≥ ·) ∧
          la + 100 < pts.getD (argmaxIdx pts) 0
      · rw [if_pos hcond] at h
        have hi : i = argmaxIdx pts := (Option.some_inj.mp h).symm
        subst hi
        refine ⟨h3, ⟨hm, hmax, hfirst, ?_⟩, hchain.mp hcond.1⟩
        have := hcond.2
        rwa [List.getD_eq_getElem?_getD, List.getElem?_eq_getElem hm] at this
      · rw [if_neg hcond] at h
        exact absurd h (by simp)
    · rintro ⟨-, ⟨hi, hmax2, hfirst2, hexc⟩, hmono⟩
      have hieq : i = argmaxIdx pts := by
        have h1 : pts[i] ≤ pts[argmaxIdx pts] := hmax pts[i] (List.getElem_mem hi)
        have h2 : pts[argmaxIdx pts] ≤ pts[i] := hmax2 pts[argmaxIdx pts] (List.getElem_mem hm)
        have heq : pts[i] = pts[argmaxIdx pts] := le_antisymm h1 h2
        rcases Nat.lt_trichotomy i (argmaxIdx pts) with hlt | he | hgt
        · exact absurd heq (ne_of_lt (hfirst i hi hlt))
        · exact he
        · exact absurd heq.symm (ne_of_lt (hfirst2 (argmaxIdx pts) hm hgt))
      subst hieq
      rw [detectDescent, if_pos h3, if_pos]
      refine ⟨hchain.mpr hmono, ?_⟩
      rwa [List.getD_eq_getElem?_getD, List.getElem?_eq_getElem hm]
  · rw [detectDescent, if_neg h3]
    simp [h3]

/-- Unfolding of balloonPerformance into its explicit result triple. -/
theorem balloonPerformance_eval (bp : BalloonParams) (payload_weight r : ℝ)
    (gas : FillGas) (corr : ℝ) :
    balloonPerformance bp payload_weight r gas corr =
      (payload_weight + (4 / 3 * Real.pi * r ^ 3 * (airDensity - gasDensity gas) -
          (bp.weight / 1000 + payload_weight)),
       npSign ((4 / 3 * Real.pi * r ^ 3 * (airDensity - gasDensity gas) -
            (bp.weight / 1000 + payload_weight)) * gravity) *
         Real.sqrt (|(4 / 3 * Real.pi * r ^ 3 * (airDensity - gasDensity gas) -
              (bp.weight / 1000 + payload_weight)) * gravity| /
            (1 / 2 * bp.drag_coefficient * airDensity * Real.pi * r ^ 2)),
       -airDensityModel *
          Real.log ((4 / 3 * Real.pi * r ^ 3) / (4 / 3 * Real.pi * (bp.burst_diameter / 2) ^ 3)) *
          corr) := rfl

/-- A negative free-lift force whose magnitude-to-drag ratio lies in the
convergence window gives an ascent velocity within 0.01 of -5. -/
theorem velocity_near_neg5 (M c : ℝ) (hM : M < 0) (hc : 0 < c)
    (h1 : 24.9001 * c < -M) (h2 : -M < 25.1001 * c) :
    |npSign M * Real.sqrt (|M| / c) - (-5)| < 1 / 100 := by
  have hX1 : 24.9001 < -M / c := (lt_div_iff hc).mpr (by linarith)
  have hX2 : -M / c < 25.1001 := (div_lt_iff hc).mpr (by linarith)
  have hsgn : npSign M = -1 := by
    rw [npSign, if_neg (by linarith), if_pos hM]
  rw [hsgn, abs_of_neg hM]
  have hs1 : Real.sqrt (-M / c) < 5.01 := by
    rw [Real.sqrt_lt' (by norm_num)]
    nlinarith [hX2]
  have hs2 : 4.99 < Real.sqrt (-M / c) := by
    rw [Real.lt_sqrt (by norm_num)]
    nlinarith [hX1]
  rw [abs_lt]
  constructor <;> nlinarith [hs1, hs2]

/-- A positive free-lift force whose magnitude-to-drag ratio lies in the
convergence window gives an ascent velocity within 0.01 of 5. -/
theorem velocity_near_pos5 (M c : ℝ) (hM : 0 < M) (hc : 0 < c)
    (h1 : 24.9001 * c < M) (h2 : M < 25.1001 * c) :
    |npSign M * Real.sqrt (|M| / c) - 5| < 1 / 100 := by
  have hX1 : 24.9001 < M / c := (lt_div_iff hc).mpr (by linarith)
  have hX2 : M / c < 25.1001 := (div_lt_iff hc).mpr (by linarith)
  have hsgn : npSign M = 1 := by
    rw [npSign, if_pos hM]
  rw [hsgn, abs_of_pos hM]
  have hs1 : Real.sqrt (M / c) < 5.01 := by
    rw [Real.sqrt_lt' (by norm_num)]
    nlinarith [hX2]
  have hs2 : 4.99 < Real.sqrt (M / c) := by
    rw [Real.lt_sqrt (by norm_num)]
    nlinarith [hX1]
  rw [abs_lt]
  constructor <;> nlinarith [hs1, hs2]

/-- Logarithm of the volume ratio when the launch radius is 3/2 and the
burst diameter is 3 e to the t. -/
theorem c2_log_ratio (t : ℝ) :
    Real.log ((4 / 3 * Real.pi * ((0 + 3) / 2) ^ 3) /
      (4 / 3 * Real.pi * (3 * Real.exp t / 2) ^ 3)) = -(3 * t) := by
  have he : Real.exp t ≠ 0 := Real.exp_ne_zero t
  have hπ : Real.pi ≠ 0 := Real.pi_ne_zero
  have hratio : (4 / 3 * Real.pi * ((0 + 3) / 2) ^ 3) /
      (4 / 3 * Real.pi * (3 * Real.exp t / 2) ^ 3) = Real.exp (-(3 * t)) := by
    have hb : (3 * Real.exp t / 2) ^ 3 = (3 / 2) ^ 3 * Real.exp t ^ 3 := by ring
    have hex : Real.exp (3 * t) = Real.exp t ^ 3 := by
      rw [show (3 : ℝ) * t = (3 : ℕ) * t by norm_num, Real.exp_nat_mul]
    rw [hb, Real.exp_neg, hex]
    have he3 : Real.exp t ^ 3 ≠ 0 := pow_ne_zero _ he
    field_simp
    ring
  rw [hratio, Real.log_exp]

/-- Filling of the concrete descent balloon for target velocity -5:
converges at the first bisection midpoint 3/2. -/
theorem c2_desc_fill : balloonFilling c2DescBalloon 12 (-5) .helium 1 =
    .ok (3 / 2, c2DescNeutralLift, 3 * airDensityModel) := by
  rw [balloonFilling, show (100 : ℕ) = 99 + 1 from rfl, bisectGo]
  simp only [balloonPerformance_eval, c2DescBalloon]
  split_ifs with h1 h2 h3
  · exact absurd h2 (by norm_num)
  · refine congrArg Except.ok ?_
    simp only [Prod.mk.injEq]
    refine ⟨by norm_num, ?_, ?_⟩
    · rw [c2DescNeutralLift]
      ring_nf
    · rw [c2_log_ratio]
      ring_nf
  · exact absurd (velocity_near_neg5 _ _
      (by simp only [airDensity, gasDensity, gravity]
          nlinarith [Real.pi_gt_d6, Real.pi_lt_d6])
      (by simp only [airDensity]; positivity)
      (by simp only [airDensity, gasDensity, gravity]
          nlinarith [Real.pi_gt_d6, Real.pi_lt_d6])
      (by simp only [airDensity, gasDensity, gravity]
          nlinarith [Real.pi_gt_d6, Real.pi_lt_d6])) h1
  · exact absurd (velocity_near_neg5 _ _
      (by simp only [airDensity, gasDensity, gravity]
          nlinarith [Real.pi_gt_d6, Real.pi_lt_d6])
      (by simp only [airDensity]; positivity)
      (by simp only [airDensity, gasDensity, gravity]
          nlinarith [Real.pi_gt_d6, Real.pi_lt_d6])
      (by simp only [airDensity, gasDensity, gravity]
          nlinarith [Real.pi_gt_d6, Real.pi_lt_d6])) h1

/-- The virtual-payload bisection of the concrete two-balloon scenario:
converges at the first midpoint 23/4. -/
theorem c2_payload_bisect :
    twoBalloonGo c2DescBalloon (3 / 2) 5 .helium 1 100 (-(1 / 2)) 12 = .ok (23 / 4) := by
  rw [show (100 : ℕ) = 99 + 1 from rfl, twoBalloonGo]
  simp only [balloonPerformance_eval, c2DescBalloon]
  split_ifs with h1 h2 h3
  · exact absurd h2 (by norm_num)
  · refine congrArg Except.ok ?_
    norm_num
  · exact absurd (velocity_near_pos5 _ _
      (by simp only [airDensity, gasDensity, gravity]
          nlinarith [Real.pi_gt_d6, Real.pi_lt_d6])
      (by simp only [airDensity]; positivity)
      (by simp only [airDensity, gasDensity, gravity]
          nlinarith [Real.pi_gt_d6, Real.pi_lt_d6])
      (by simp only [airDensity, gasDensity, gravity]
          nlinarith [Real.pi_gt_d6, Real.pi_lt_d6])) h1
  · exact absurd (velocity_near_pos5 _ _
      (by simp only [airDensity, gasDensity, gravity]
          nlinarith [Real.pi_gt_d6, Real.pi_lt_d6])
      (by simp only [airDensity]; positivity)
      (by simp only [airDensity, gasDensity, gravity]
          nlinarith [Real.pi_gt_d6, Real.pi_lt_d6])
      (by simp only [airDensity, gasDensity, gravity]
          nlinarith [Real.pi_gt_d6, Real.pi_lt_d6])) h1

/-- Filling of the concrete ascent balloon for the reduced payload and
target velocity 5: converges at the first bisection midpoint 3/2. -/
theorem c2_asc_fill : balloonFilling c2AscBalloon (12 - 23 / 4) 5 .helium 1 =
    .ok (3 / 2, c2AscNeutralLift, airDensityModel * (63 / 20)) := by
  rw [balloonFilling, show (100 : ℕ) = 99 + 1 from rfl, bisectGo]
  simp only [balloonPerformance_eval, c2AscBalloon]
  split_ifs with h1 h2 h3
  · exact absurd h2 (by norm_num)
  · refine congrArg Except.ok ?_
    simp only [Prod.mk.injEq]
    refine ⟨by norm_num, ?_, ?_⟩
    · rw [c2AscNeutralLift]
      ring_nf
    · rw [c2_log_ratio]
      ring_nf
  · exact absurd (velocity_near_pos5 _ _
      (by simp only [airDensity, gasDensity, gravity]
          nlinarith [Real.pi_gt_d6, Real.pi_lt_d6])
      (by simp only [airDensity]; positivity)
      (by simp only [airDensity, gasDensity, gravity]
          nlinarith [Real.pi_gt_d6, Real.pi_lt_d6])
      (by simp only [airDensity, gasDensity, gravity]
          nlinarith [Real.pi_gt_d6, Real.pi_lt_d6])) h1
  · exact absurd (velocity_near_pos5 _ _
      (by simp only [airDensity, gasDensity, gravity]
          nlinarith [Real.pi_gt_d6, Real.pi_lt_d6])
      (by simp only [airDensity]; positivity)
      (by simp only [airDensity, gasDensity, gravity]
          nlinarith [Real.pi_gt_d6, Real.pi_lt_d6])
      (by simp only [airDensity, gasDensity, gravity]
          nlinarith [Real.pi_gt_d6, Real.pi_lt_d6])) h1

/-- The full two-balloon filling of the concrete scenario. -/
theorem c2_twoBalloon_run :
    twoBalloonFilling c2AscBalloon c2DescBalloon 12 5 5 .helium 1 =
      .ok (3 / 2, 3 / 2, c2AscNeutralLift, c2DescNeutralLift,
        airDensityModel * (63 / 20), 3 * airDensityModel) := by
  rw [twoBalloonFilling, c2_desc_fill]
  simp only
  rw [c2_payload_bisect]
  simp only
  rw [c2_asc_fill]

/-- C2 (counterexample): a two-balloon configuration on which the code
proceeds with the cut altitude as ceiling although the ascent-balloon burst
height (about 22801 m) does not clear the descent-balloon burst height
(about 21715 m) by 2000 m.  The claimed margin condition relative to the
descent-balloon burst height is therefore not what the code raises on: the
code compares the ascent-balloon burst height against the cut altitude plus
2000 m. -/
theorem mainTwoBalloon_c2_cex :
    mainTwoBalloonTopHeight c2AscBalloon c2DescBalloon 12 5 5 .helium 20000 = .ok 20000 ∧
    twoBalloonFilling c2AscBalloon c2DescBalloon 12 5 5 .helium 1 =
      .ok (3 / 2, 3 / 2, c2AscNeutralLift, c2DescNeutralLift,
        airDensityModel * (63 / 20), 3 * airDensityModel) ∧
    airDensityModel * (63 / 20) < 3 * airDensityModel + 2000 := by
  refine ⟨?_, c2_twoBalloon_run, by rw [airDensityModel]; norm_num⟩
  rw [mainTwoBalloonTopHeight, c2_twoBalloon_run]
  simp only
  rw [mainTwoBalloonCheck, if_neg (by rw [airDensityModel]; norm_num),
    if_neg (by rw [airDensityModel]; norm_num)]

/-- C2 (amended): the two-balloon configuration check raises
InvalidConfiguration exactly when the descent-balloon burst height fails to
clear the cut altitude by 1000 m or the ascent-balloon burst height fails
to clear the cut altitude by 2000 m, and otherwise planning proceeds with
the cut altitude as ceiling. -/
theorem mainTwoBalloonCheck_c2_amended (desc_bh asc_bh cut : ℝ) :
    (mainTwoBalloonCheck desc_bh asc_bh cut = .error .invalidConfiguration ↔
      desc_bh < cut + 1000 ∨ asc_bh < cut + 2000) ∧
    (mainTwoBalloonCheck desc_bh asc_bh cut = .ok cut ↔
      ¬(desc_bh < cut + 1000 ∨ asc_bh < cut + 2000)) := by
  rw [mainTwoBalloonCheck]
  by_cases hd : desc_bh < cut + 1000
  · simp [hd]
  · by_cases ha : asc_bh < cut + 2000 <;> simp [hd, ha]

/-- A normal return of the bisection loop carries exactly the performance
values at the returned radius, with the convergence criterion met. -/
theorem bisectGo_ok_spec (bp : BalloonParams) (payload target : ℝ) (gas : FillGas)
    (corr : ℝ) :
    ∀ (n : ℕ) (rmin rmax r nl bh : ℝ),
      bisectGo bp payload target gas corr n rmin rmax = .ok (r, nl, bh) →
      (balloonPerformance bp payload r gas corr).1 = nl ∧
      (balloonPerformance bp payload r gas corr).2.2 = bh ∧
      |(balloonPerformance bp payload r gas corr).2.1 - target| < 1 / 100 := by
  intro n
  induction n with
  | zero =>
    intro rmin rmax r nl bh h
    exact absurd h (by simp [bisectGo])
  | succ n ih =>
    intro rmin rmax r nl bh h
    simp only [bisectGo] at h
    split_ifs at h with h1 h2
    all_goals first
      | exact Except.noConfusion h
      | (simp only [Except.ok.injEq, Prod.mk.injEq] at h
         obtain ⟨hr, hnl, hbh⟩ := h
         subst hr
         exact ⟨hnl, hbh, h1⟩)
      | exact ih _ _ r nl bh h

/-- C4: whenever the filling solver returns a radius, neutral lift and
burst height, feeding that radius back into the performance routine with
the same balloon, payload and gas reproduces the target velocity within
0.01 m per s and returns the very same neutral lift and burst height. -/
theorem balloonFilling_c4_roundtrip (bp : BalloonParams) (payload target : ℝ)
    (gas : FillGas) (corr r nl bh : ℝ)
    (h : balloonFilling bp payload target gas corr = .ok (r, nl, bh)) :
    (balloonPerformance bp payload r gas corr).1 = nl ∧
    (balloonPerformance bp payload r gas corr).2.2 = bh ∧
    |(balloonPerformance bp payload r gas corr).2.1 - target| < 1 / 100 :=
  bisectGo_ok_spec bp payload target gas corr 100 0 3 r nl bh h

/-- Concrete run of the filling solver on c4Balloon: converges at the first
midpoint. -/
theorem c4_fill_run : balloonFilling c4Balloon 0 1 .helium 1 =
    .ok (3 / 2, 9 / 2 * Real.pi * (airDensity - gasDensity .helium), 0) := by
  have hM : (0 : ℝ) <
      (4 / 3 * Real.pi * ((0 + 3) / 2) ^ 3 * (airDensity - gasDensity .helium) -
        (c4Balloon.weight / 1000 + 0)) * gravity := by
    simp only [c4Balloon, airDensity, gasDensity, gravity]
    nlinarith [Real.pi_gt_three]
  have hX : |(4 / 3 * Real.pi * ((0 + 3) / 2) ^ 3 * (airDensity - gasDensity .helium) -
        (c4Balloon.weight / 1000 + 0)) * gravity| /
      (1 / 2 * c4Balloon.drag_coefficient * airDensity * Real.pi * ((0 + 3) / 2) ^ 2) = 1 := by
    rw [abs_of_pos hM]
    simp only [c4Balloon, airDensity, gasDensity, gravity]
    rw [div_eq_one_iff_eq (by positivity)]
    ring
  have hv : |npSign ((4 / 3 * Real.pi * ((0 + 3) / 2) ^ 3 * (airDensity - gasDensity .helium) -
        (c4Balloon.weight / 1000 + 0)) * gravity) *
      Real.sqrt (|(4 / 3 * Real.pi * ((0 + 3) / 2) ^ 3 * (airDensity - gasDensity .helium) -
          (c4Balloon.weight / 1000 + 0)) * gravity| /
        (1 / 2 * c4Balloon.drag_coefficient * airDensity * Real.pi * ((0 + 3) / 2) ^ 2)) -
        1| < 1 / 100 := by
    rw [hX, Real.sqrt_one, npSign, if_pos hM]
    norm_num
  rw [balloonFilling, show (100 : ℕ) = 99 + 1 from rfl, bisectGo]
  simp only [balloonPerformance_eval]
  rw [if_pos hv, if_neg (by norm_num : ¬(99 : ℕ) = 0)]
  refine congrArg Except.ok ?_
  simp only [Prod.mk.injEq, c4Balloon]
  refine ⟨by norm_num, by ring, ?_⟩
  have hone : (4 / 3 * Real.pi * ((0 + 3) / 2) ^ 3) / (4 / 3 * Real.pi * ((3 : ℝ) / 2) ^ 3) = 1 := by
    rw [div_eq_one_iff_eq (by positivity)]
    norm_num
  rw [hone, Real.log_one]
  ring

/-- C4 (witness): the round-trip theorem applied to the concrete run on
c4Balloon. -/
theorem balloonFilling_c4_witness :
    balloonFilling c4Balloon 0 1 .helium 1 =
      .ok (3 / 2, 9 / 2 * Real.pi * (airDensity - gasDensity .helium), 0) ∧
    (balloonPerformance c4Balloon 0 (3 / 2) .helium 1).1 =
      9 / 2 * Real.pi * (airDensity - gasDensity .helium) ∧
    (balloonPerformance c4Balloon 0 (3 / 2) .helium 1).2.2 = 0 ∧
    |(balloonPerformance c4Balloon 0 (3 / 2) .helium 1).2.1 - 1| < 1 / 100 :=
  ⟨c4_fill_run, balloonFilling_c4_roundtrip c4Balloon 0 1 .helium 1 (3 / 2)
    (9 / 2 * Real.pi * (airDensity - gasDensity .helium)) 0 c4_fill_run⟩

/-- The bisection loop raises exactly when the convergence criterion fails
at every midpoint it can inspect before its final iteration: with fuel n,
these are the first n - 1 midpoints.  Convergence reached at the very last
iteration still raises. -/
theorem bisectGo_error_iff (bp : BalloonParams) (payload target : ℝ) (gas : FillGas)
    (corr : ℝ) :
    ∀ (n : ℕ), 1 ≤ n → ∀ p : ℝ × ℝ,
      (bisectGo bp payload target gas corr n p.1 p.2 = .error .bisectionNotConverged ↔
        ∀ k, k < n - 1 → ¬ bisectConv bp payload target gas corr
          ((bisectStep bp payload target gas corr)^[k] p)) := by
  intro n
  induction n with
  | zero =>
    intro h
    exact absurd h (by omega)
  | succ m ih =>
    intro _ p
    rcases Nat.eq_zero_or_pos m with rfl | hm
    · refine iff_of_true ?_ ?_
      · simp only [bisectGo]
        split_ifs <;> simp [bisectGo]
      · intro k hk
        exact absurd hk (by omega)
    · by_cases hc : bisectConv bp payload target gas corr p
      · refine iff_of_false ?_ ?_
        · simp only [bisectConv] at hc
          simp only [bisectGo]
          rw [if_pos hc, if_neg (by omega : ¬ m = 0)]
          simp
        · intro hall
          have h0 := hall 0 (by omega)
          rw [Function.iterate_zero_apply] at h0
          exact h0 hc
      · have hstep : bisectGo bp payload target gas corr (m + 1) p.1 p.2 =
            bisectGo bp payload target gas corr m
              (bisectStep bp payload target gas corr p).1
              (bisectStep bp payload target gas corr p).2 := by
          simp only [bisectConv] at hc
          by_cases hgt : target <
              (balloonPerformance bp payload ((p.1 + p.2) / 2) gas corr).2.1
          · simp only [bisectGo, bisectStep, if_neg hc, if_pos hgt]
          · simp only [bisectGo, bisectStep, if_neg hc, if_neg hgt]
        rw [hstep, ih hm (bisectStep bp payload target gas corr p)]
        constructor
        · intro h k hk
          cases k with
          | zero => simpa using hc
          | succ k =>
            rw [Function.iterate_succ_apply]
            exact h k (by omega)
        · intro h k hk
          have h2 := h (k + 1) (by omega)
          rwa [Function.iterate_succ_apply] at h2

/-- C5 (amended): the filling solver raises BisectionNotConverged exactly
when none of the first 99 bisection midpoints meets the convergence
criterion; in particular, convergence first reached at the 100th midpoint
still raises. -/
theorem balloonFilling_c5_amended (bp : BalloonParams) (payload target : ℝ)
    (gas : FillGas) (corr : ℝ) :
    balloonFilling bp payload target gas corr = .error .bisectionNotConverged ↔
      ∀ k, k < 99 → ¬ bisectConv bp payload target gas corr
        ((bisectStep bp payload target gas corr)^[k] (0, 3)) := by
  have h := bisectGo_error_iff bp payload target gas corr 100 (by norm_num) (0, 3)
  rw [balloonFilling]
  exact h

/-- Ascent velocity of c5Balloon with zero payload at any positive radius. -/
theorem c5_velocity (r : ℝ) (hr : 0 < r) :
    (balloonPerformance c5Balloon 0 r .helium 1).2.1 =
      Real.sqrt (r * 2 ^ 100 / 3) := by
  simp only [balloonPerformance_eval]
  have hM : (0 : ℝ) <
      (4 / 3 * Real.pi * r ^ 3 * (airDensity - gasDensity .helium) -
        (c5Balloon.weight / 1000 + 0)) * gravity := by
    simp only [c5Balloon, airDensity, gasDensity, gravity]
    nlinarith [Real.pi_gt_three, pow_pos hr 3]
  rw [npSign, if_pos hM, abs_of_pos hM, one_mul]
  congr 1
  simp only [c5Balloon, airDensity, gasDensity, gravity]
  have hπ : Real.pi ≠ 0 := Real.pi_ne_zero
  have hr0 : r ≠ 0 := ne_of_gt hr
  field_simp
  ring

/-- Ascent velocity of c5Balloon at the k-th bisection midpoint. -/
theorem c5_velocity_pow (k : ℕ) (hk : k ≤ 99) :
    (balloonPerformance c5Balloon 0 ((0 + 3 / 2 ^ k) / 2) .helium 1).2.1 =
      Real.sqrt (2 ^ (99 - k)) := by
  rw [c5_velocity _ (by positivity)]
  congr 1
  have h2 : (2 : ℝ) ^ (99 - k) * 2 ^ (k + 1) = 2 ^ 100 := by
    rw [← pow_add]
    congr 1
    omega
  have hne : ((2 : ℝ) ^ k) ≠ 0 := by positivity
  field_simp
  linear_combination (-3 : ℝ) * h2

/-- The square root of 2 to the 99 - k is comfortably above the
convergence window around 1 while k is at most 98. -/
theorem c5_sqrt_big (k : ℕ) (hk : k ≤ 98) :
    (1.01 : ℝ) < Real.sqrt (2 ^ (99 - k)) := by
  have h2 : (2 : ℝ) ≤ 2 ^ (99 - k) := by
    calc (2 : ℝ) = 2 ^ 1 := (pow_one 2).symm
    _ ≤ 2 ^ (99 - k) := pow_le_pow_right (by norm_num) (by omega)
  have hs := Real.sqrt_le_sqrt h2
  have h1 : (1.01 : ℝ) < Real.sqrt 2 := (Real.lt_sqrt (by norm_num)).mpr (by norm_num)
  linarith

/-- The convergence criterion fails at the k-th bisection state of
c5Balloon while k is at most 98. -/
theorem c5_not_conv (k : ℕ) (hk : k ≤ 98) :
    ¬ bisectConv c5Balloon 0 1 .helium 1 (0, 3 / 2 ^ k) := by
  simp only [bisectConv]
  rw [c5_velocity_pow k (by omega)]
  intro habs
  rw [abs_lt] at habs
  have := c5_sqrt_big k hk
  linarith [habs.2]

/-- The bisection state of c5Balloon keeps halving its upper radius
bound. -/
theorem c5_iterate (k : ℕ) (hk : k ≤ 99) :
    (bisectStep c5Balloon 0 1 .helium 1)^[k] (0, 3) = (0, 3 / 2 ^ k) := by
  induction k with
  | zero => norm_num
  | succ k ihk =>
    rw [Function.iterate_succ_apply', ihk (by omega)]
    have hnc := c5_not_conv k (by omega)
    simp only [bisectConv] at hnc
    have hv := c5_velocity_pow k (by omega)
    have hgt : (1 : ℝ) <
        (balloonPerformance c5Balloon 0 ((0 + 3 / 2 ^ k) / 2) .helium 1).2.1 := by
      rw [hv]
      have := c5_sqrt_big k (by omega)
      linarith
    simp only [bisectStep]
    rw [if_neg hnc, if_pos hgt]
    simp only [Prod.mk.injEq]
    refine ⟨trivial, ?_⟩
    rw [pow_succ]
    ring

/-- C5 (counterexample): on c5Balloon with zero payload and target velocity
1 the solver raises BisectionNotConverged although the convergence
criterion is met at the 100th bisection midpoint, i.e. within the iteration
budget. -/
theorem balloonFilling_c5_cex :
    balloonFilling c5Balloon 0 1 .helium 1 = .error .bisectionNotConverged ∧
    bisectConv c5Balloon 0 1 .helium 1
      ((bisectStep c5Balloon 0 1 .helium 1)^[99] (0, 3)) := by
  constructor
  · have h := bisectGo_error_iff c5Balloon 0 1 .helium 1 100 (by norm_num) (0, 3)
    rw [balloonFilling]
    refine h.mpr ?_
    intro k hk
    rw [c5_iterate k (by omega)]
    exact c5_not_conv k (by omega)
  · rw [c5_iterate 99 le_rfl]
    simp only [bisectConv]
    rw [c5_velocity_pow 99 le_rfl]
    rw [show (99 - 99 : ℕ) = 0 from rfl, pow_zero, Real.sqrt_one]
    norm_num

/-- The time of the next Runge-Kutta state advances by the internal
timestep. -/
theorem rk4Step_t (P : DescParams) (st : DescState) : (rk4Step P st).t = st.t + delt := rfl

/-- The altitude of the next Runge-Kutta state in terms of the four stage
vertical rates. -/
theorem rk4Step_z (P : DescParams) (st : DescState) :
    (rk4Step P st).z = st.z + delt / 6 * ((rk4Data P st).1.1 + 2 * (rk4Data P st).1.2.1 +
      2 * (rk4Data P st).1.2.2.1 + (rk4Data P st).1.2.2.2) := rfl

/-- Nonpositive stage vertical rates give a non-increasing altitude step. -/
theorem rk4Step_z_le (P : DescParams) (st : DescState) (h : stageZNonpos P st) :
    (rk4Step P st).z ≤ st.z := by
  obtain ⟨h1, h2, h3, h4⟩ := h
  rw [rk4Step_z]
  have hd : (0 : ℝ) < delt := by norm_num [delt]
  nlinarith

/-- All samples recorded by the integration loop are at or above ground. -/
theorem descentLoop_nonneg (P : DescParams) :
    ∀ (n : ℕ) (st : DescState) (l : List DescState),
      descentLoop P n st = .ok l → ∀ x ∈ l, 0 ≤ x.z := by
  intro n
  induction n with
  | zero =>
    intro st l h
    exact absurd h (by simp [descentLoop])
  | succ n ih =>
    intro st l h
    by_cases hz : st.z < 0
    · simp only [descentLoop, if_pos hz, Except.ok.injEq] at h
      subst h
      simp
    · simp only [descentLoop, if_neg hz] at h
      cases hrec : descentLoop P n (rk4Step P st) with
      | error e =>
        rw [hrec] at h
        exact absurd h (by simp)
      | ok rest =>
        rw [hrec] at h
        simp only [Except.ok.injEq] at h
        subst h
        intro x hx
        rcases List.mem_cons.mp hx with rfl | hx
        · linarith [not_lt.mp hz]
        · exact ih _ rest hrec x hx

/-- An accepting run from a state at or above ground starts by recording
that state. -/
theorem descentLoop_cons (P : DescParams) (n : ℕ) (st : DescState) (l : List DescState)
    (h : descentLoop P (n + 1) st = .ok l) (hz : ¬ st.z < 0) :
    ∃ rest, l = st :: rest ∧ descentLoop P n (rk4Step P st) = .ok rest := by
  simp only [descentLoop, if_neg hz] at h
  cases hrec : descentLoop P n (rk4Step P st) with
  | error e =>
    rw [hrec] at h
    exact absurd h (by simp)
  | ok rest =>
    rw [hrec] at h
    simp only [Except.ok.injEq] at h
    exact ⟨rest, h.symm, rfl⟩

/-- The head of an accepting run is its start state. -/
theorem descentLoop_head (P : DescParams) (n : ℕ) (st : DescState) (l : List DescState)
    (h : descentLoop P n st = .ok l) : l = [] ∨ l.head? = some st := by
  cases n with
  | zero => exact absurd h (by simp [descentLoop])
  | succ n =>
    by_cases hz : st.z < 0
    · simp only [descentLoop, if_pos hz, Except.ok.injEq] at h
      exact Or.inl h.symm
    · obtain ⟨rest, rfl, -⟩ := descentLoop_cons P n st l h hz
      exact Or.inr rfl

/-- Chains along an accepting run: any step relation that holds from each
recorded state to its Runge-Kutta successor, under a predicate satisfied by
all recorded states, holds along the whole sample list. -/
theorem descentLoop_chainR (P : DescParams) (pred : DescState → Prop)
    (R : DescState → DescState → Prop)
    (hstep : ∀ st, pred st → R st (rk4Step P st)) :
    ∀ (n : ℕ) (st : DescState) (l : List DescState),
      descentLoop P n st = .ok l → (∀ x ∈ l, pred x) → l.Chain' R := by
  intro n
  induction n with
  | zero =>
    intro st l h _
    exact absurd h (by simp [descentLoop])
  | succ n ih =>
    intro st l h hall
    by_cases hz : st.z < 0
    · simp only [descentLoop, if_pos hz, Except.ok.injEq] at h
      subst h
      exact List.chain'_nil
    · obtain ⟨rest, rfl, hrec⟩ := descentLoop_cons P n st l h hz
      rw [List.chain'_cons']
      constructor
      · intro y hy
        rcases descentLoop_head P n (rk4Step P st) rest hrec with hnil | hhead
        · subst hnil
          simp at hy
        · rw [hhead] at hy
          simp only [Option.mem_def, Option.some.injEq] at hy
          subst hy
          exact hstep st (hall st (List.mem_cons_self _ _))
      · exact ih _ rest hrec (fun x hx => hall x (List.mem_cons_of_mem _ hx))

/-- The sampled altitudes are pairwise non-increasing when every recorded
state has nonpositive stage vertical rates. -/
theorem descentLoop_z_pairwise (P : DescParams) (n : ℕ) (st : DescState)
    (l : List DescState) (h : descentLoop P n st = .ok l)
    (hst : ∀ x ∈ l, stageZNonpos P x) : l.Pairwise (fun p q => q.z ≤ p.z) := by
  have hchain := descentLoop_chainR P (stageZNonpos P) (fun p q => q.z ≤ p.z)
    (fun st0 hst0 => rk4Step_z_le P st0 hst0) n st l h hst
  haveI : IsTrans DescState (fun p q => q.z ≤ p.z) :=
    ⟨fun _ _ _ hab hbc => le_trans hbc hab⟩
  exact List.chain'_iff_pairwise.mp hchain

/-- The sampled times are pairwise strictly increasing. -/
theorem descentLoop_t_pairwise (P : DescParams) (n : ℕ) (st : DescState)
    (l : List DescState) (h : descentLoop P n st = .ok l) :
    l.Pairwise (fun p q => p.t < q.t) := by
  have hchain := descentLoop_chainR P (fun _ => True) (fun p q => p.t < q.t)
    (fun st0 _ => by
      show st0.t < (rk4Step P st0).t
      rw [rk4Step_t]
      norm_num [delt]) n st l h (fun x _ => trivial)
  haveI : IsTrans DescState (fun p q => p.t < q.t) :=
    ⟨fun _ _ _ hab hbc => lt_trans hab hbc⟩
  exact List.chain'_iff_pairwise.mp hchain

/-- Unfolding equation of the downsampling walk on a cons cell. -/
theorem everyKth_cons {α : Type} (k : ℕ) (x : α) (xs : List α) :
    everyKth k (x :: xs) = x :: everyKth k (xs.drop (k - 1)) := by
  rw [everyKth]

/-- The downsampling walk yields a sublist. -/
theorem everyKth_sublist {α : Type} (k : ℕ) (l : List α) : (everyKth k l).Sublist l := by
  have H : ∀ (n : ℕ) (l : List α), l.length ≤ n → (everyKth k l).Sublist l := by
    intro n
    induction n with
    | zero =>
      intro l hl
      have : l = [] := List.length_eq_zero.mp (by omega)
      subst this
      simp [everyKth]
    | succ n ihn =>
      intro l hl
      cases l with
      | nil => simp [everyKth]
      | cons x xs =>
        rw [everyKth_cons]
        refine List.Sublist.cons₂ x ?_
        exact (ihn (xs.drop (k - 1)) (by simp [List.length_drop] at hl ⊢; omega)).trans
          (List.drop_sublist _ _)
  exact H l.length l le_rfl

/-- The elements of a downsampled sample list are samples. -/
theorem downsample_subset (k : ℤ) (sts : List DescState) :
    ∀ x ∈ downsample k sts, x ∈ sts := by
  intro x hx
  rw [downsample] at hx
  split_ifs at hx
  · exact (everyKth_sublist _ _).subset hx
  · exact List.mem_reverse.mp ((everyKth_sublist _ _).subset hx)

/-- Rewriting of Int.fract as a subtraction. -/
theorem fract_eq (x : ℝ) : Int.fract x = x - ⌊x⌋ := rfl

/-- Round half to even of an integer value is that integer. -/
theorem roundHalfEven_intCast (m : ℤ) : roundHalfEven (m : ℝ) = m := by
  rw [roundHalfEven, Int.fract_intCast]
  norm_num

/-- Round half to even returns zero exactly on the closed interval from
-1/2 to 1/2. -/
theorem roundHalfEven_eq_zero_iff (x : ℝ) :
    roundHalfEven x = 0 ↔ -(1 / 2) ≤ x ∧ x ≤ 1 / 2 := by
  have hsum : (⌊x⌋ : ℝ) + Int.fract x = x := Int.floor_add_fract x
  have hfr0 : 0 ≤ Int.fract x := Int.fract_nonneg x
  have hfr1 : Int.fract x < 1 := Int.fract_lt_one x
  rw [roundHalfEven]
  split_ifs with h1 h2 h3
  · constructor
    · intro h0
      have hc : (⌊x⌋ : ℝ) = 0 := by exact_mod_cast h0
      constructor <;> linarith
    · rintro ⟨ha, hb⟩
      have hlb : (0 : ℝ) ≤ x := by
        by_contra hneg
        push_neg at hneg
        have hfl : ⌊x⌋ = -1 := by
          apply Int.floor_eq_iff.mpr
          constructor <;> push_cast <;> linarith
        have hfx : Int.fract x = x + 1 := by
          rw [fract_eq, hfl]
          push_cast
          ring
        linarith
      apply Int.floor_eq_iff.mpr
      constructor <;> push_cast <;> linarith
  · constructor
    · intro h0
      have hfl : ⌊x⌋ = -1 := by omega
      have hfx : Int.fract x = x + 1 := by
        rw [fract_eq, hfl]
        push_cast
        ring
      constructor <;> linarith
    · rintro ⟨ha, hb⟩
      have hneg : x < 0 := by
        by_contra hp
        push_neg at hp
        have hfl : ⌊x⌋ = 0 := by
          apply Int.floor_eq_iff.mpr
          constructor <;> push_cast <;> linarith
        have hfx : Int.fract x = x := by
          rw [fract_eq, hfl]
          push_cast
          ring
        linarith
      have hfl : ⌊x⌋ = -1 := by
        apply Int.floor_eq_iff.mpr
        constructor <;> push_cast <;> linarith
      omega
  · have hfx : Int.fract x = 1 / 2 := le_antisymm (not_lt.mp h2) (not_lt.mp h1)
    constructor
    · intro h0
      have hc : (⌊x⌋ : ℝ) = 0 := by exact_mod_cast h0
      constructor <;> linarith
    · rintro ⟨ha, hb⟩
      have hbounds : (-1 : ℤ) ≤ ⌊x⌋ ∧ ⌊x⌋ ≤ 0 := by
        constructor
        · have : (-1 : ℝ) ≤ (⌊x⌋ : ℝ) := by linarith
          exact_mod_cast this
        · have : ((⌊x⌋ : ℝ)) ≤ 0 := by linarith
          exact_mod_cast this
      have hcase : ⌊x⌋ = -1 ∨ ⌊x⌋ = 0 := by omega
      rcases hcase with h | h
      · rw [h] at h3
        exact absurd h3 (by decide)
      · exact h
  · have hfx : Int.fract x = 1 / 2 := le_antisymm (not_lt.mp h2) (not_lt.mp h1)
    constructor
    · intro h0
      have hfl : ⌊x⌋ = -1 := by omega
      have hc : (⌊x⌋ : ℝ) = -1 := by exact_mod_cast hfl
      constructor <;> linarith
    · rintro ⟨ha, hb⟩
      have hbounds : (-1 : ℤ) ≤ ⌊x⌋ ∧ ⌊x⌋ ≤ 0 := by
        constructor
        · have : (-1 : ℝ) ≤ (⌊x⌋ : ℝ) := by linarith
          exact_mod_cast this
        · have : ((⌊x⌋ : ℝ)) ≤ 0 := by linarith
          exact_mod_cast this
      have hcase : ⌊x⌋ = -1 ∨ ⌊x⌋ = 0 := by omega
      rcases hcase with h | h
      · omega
      · exact absurd (by rw [h]; decide : Even ⌊x⌋) h3

/-- Round half to even is positive above 1/2. -/
theorem roundHalfEven_pos_of (x : ℝ) (hx : 1 / 2 < x) : 0 < roundHalfEven x := by
  have hsum : (⌊x⌋ : ℝ) + Int.fract x = x := Int.floor_add_fract x
  have hfr1 : Int.fract x < 1 := Int.fract_lt_one x
  have h0 : (0 : ℤ) ≤ ⌊x⌋ := Int.floor_nonneg.mpr (by linarith)
  rw [roundHalfEven]
  split_ifs with h1 h2 h3
  · rcases eq_or_lt_of_le h0 with heq | hlt
    · exfalso
      have hc : (⌊x⌋ : ℝ) = 0 := by exact_mod_cast heq.symm
      linarith
    · exact hlt
  · omega
  · rcases eq_or_lt_of_le h0 with heq | hlt
    · exfalso
      have hfx : Int.fract x = 1 / 2 := le_antisymm (not_lt.mp h2) (not_lt.mp h1)
      have hc : (⌊x⌋ : ℝ) = 0 := by exact_mod_cast heq.symm
      linarith
    · exact hlt
  · omega

/-- In a sample list with strictly increasing times, a member carrying the
time of the last sample is the last sample. -/
theorem pairwise_t_getLast (sts : List DescState)
    (hp : sts.Pairwise (fun p q => p.t < q.t)) (lastSt : DescState)
    (hlast : sts.getLast? = some lastSt) :
    ∀ q ∈ sts, q.t = lastSt.t → q = lastSt := by
  intro q hq hqt
  rw [List.pairwise_iff_getElem] at hp
  obtain ⟨i, hi, rfl⟩ := List.mem_iff_getElem.mp hq
  have hne : sts ≠ [] := by
    rintro rfl
    simp at hlast
  have hlen : sts.length - 1 < sts.length := by
    have := List.length_pos.mpr hne
    omega
  have hlast2 : lastSt = sts[sts.length - 1] := by
    rw [List.getLast?_eq_getLast sts hne, Option.some.injEq] at hlast
    rw [← hlast, List.getLast_eq_getElem]
  rcases Nat.lt_trichotomy i (sts.length - 1) with hlt | heq | hgt
  · have hp2 := hp i (sts.length - 1) hi (by omega) hlt
    rw [← hlast2] at hp2
    exact absurd hqt (ne_of_lt hp2)
  · rw [hlast2]
    exact getElem_congr heq
  · omega

/-- Shape of a normal return of parachuteDescent: the returned arrays are
the projections of a final sample list which is the downsampled list,
possibly with the terminal sample appended, and whose last element is the
terminal sample of the integration. -/
theorem parachuteDescent_ok_final (alt_start timestep payload_weight : ℝ)
    (pp : ParachuteParams) (area pdc v0 : ℝ) (sts : List DescState)
    (lastSt : DescState) (t a v : List ℝ)
    (hloop : descentLoop ⟨payload_weight, pp, area, pdc⟩ maxIter
      ⟨0, alt_start, v0⟩ = .ok sts)
    (hlast : sts.getLast? = some lastSt)
    (hres : parachuteDescent alt_start timestep payload_weight pp area pdc v0 =
      .ok (t, a, v)) :
    ∃ final : List DescState,
      (final = downsample (roundHalfEven (timestep / delt)) sts ∨
        final = downsample (roundHalfEven (timestep / delt)) sts ++ [lastSt]) ∧
      final.getLast? = some lastSt ∧
      t = final.map DescState.t ∧ a = final.map DescState.z ∧
      v = final.map DescState.s := by
  simp only [parachuteDescent, hloop, hlast] at hres
  split_ifs at hres with hk0 hsame
  all_goals simp only [Except.ok.injEq, Prod.mk.injEq] at hres
  all_goals obtain ⟨ht, ha, hv⟩ := hres
  · refine ⟨downsample (roundHalfEven (timestep / delt)) sts, Or.inl rfl, ?_,
      ht.symm, ha.symm, hv.symm⟩
    obtain ⟨q, hq1, hq2⟩ := Option.map_eq_some'.mp hsame
    have hqmem : q ∈ sts :=
      downsample_subset _ _ q (List.mem_of_getLast?_eq_some hq1)
    have hpair := descentLoop_t_pairwise _ maxIter _ _ hloop
    have hq3 := pairwise_t_getLast sts hpair lastSt hlast q hqmem hq2
    rw [hq1, hq3]
  · exact ⟨downsample (roundHalfEven (timestep / delt)) sts ++ [lastSt], Or.inr rfl,
      List.getLast?_concat _, ht.symm, ha.symm, hv.symm⟩

/-- C6: for every call of the descent simulator that returns arrays from a
ground-terminated integration started at or above ground, the last entries
of the returned time, altitude and velocity arrays are exactly the
components of the terminal integration sample, whatever the requested
output timestep; moreover every integration sample lies at or above
ground. -/
theorem parachuteDescent_c6 (alt_start timestep payload_weight : ℝ)
    (pp : ParachuteParams) (area pdc v0 : ℝ) (sts : List DescState)
    (t a v : List ℝ)
    (h0 : 0 ≤ alt_start)
    (hloop : descentLoop ⟨payload_weight, pp, area, pdc⟩ maxIter
      ⟨0, alt_start, v0⟩ = .ok sts)
    (hres : parachuteDescent alt_start timestep payload_weight pp area pdc v0 =
      .ok (t, a, v)) :
    (∀ st ∈ sts, 0 ≤ st.z) ∧
    t.getLast? = (sts.map DescState.t).getLast? ∧
    a.getLast? = (sts.map DescState.z).getLast? ∧
    v.getLast? = (sts.map DescState.s).getLast? := by
  have hz := descentLoop_nonneg _ maxIter _ sts hloop
  have hne : sts ≠ [] := by
    rw [show maxIter = 9999999 + 1 from by norm_num [maxIter]] at hloop
    obtain ⟨rest, rfl, -⟩ := descentLoop_cons _ 9999999 _ sts hloop (not_lt.mpr h0)
    simp
  have hlast : sts.getLast? = some (sts.getLast hne) := List.getLast?_eq_getLast sts hne
  obtain ⟨final, -, hfin, ht, ha, hv⟩ :=
    parachuteDescent_ok_final alt_start timestep payload_weight pp area pdc v0 sts
      (sts.getLast hne) t a v hloop hlast hres
  subst ht ha hv
  refine ⟨hz, ?_, ?_, ?_⟩ <;>
    rw [List.getLast?_map, hfin, List.getLast?_map, hlast]

/-- The drag-free parameters have zero total drag area. -/
theorem dragArea_dragFree : dragArea paraDragFree = 0 := by
  rw [dragArea]
  norm_num [paraDragFree]

/-- Drag-free acceleration is constant free fall. -/
theorem descAccel_dragFree (z s : ℝ) : descAccel paraDragFree z s = -gPara := by
  rw [descAccel, dragArea_dragFree]
  ring

/-- The drag-free Runge-Kutta step is the exact free-fall update. -/
theorem rk4Step_dragFree (st : DescState) :
    rk4Step paraDragFree st =
      ⟨st.t + delt, st.z + delt * st.s - gPara * delt ^ 2 / 2, st.s - gPara * delt⟩ := by
  simp only [rk4Step, rk4Data, descAccel_dragFree, DescState.mk.injEq]
  refine ⟨by ring, by ring, by ring⟩

/-- All four drag-free stage vertical rates are nonpositive when the
current velocity is nonpositive. -/
theorem stageZNonpos_dragFree (st : DescState) (hs : st.s ≤ 0) :
    stageZNonpos paraDragFree st := by
  simp only [stageZNonpos, rk4Data, descAccel_dragFree]
  have hd : (delt : ℝ) = 1 / 5 := by norm_num [delt]
  have hg : (gPara : ℝ) = 981 / 100 := by norm_num [gPara]
  refine ⟨hs, ?_, ?_, ?_⟩ <;> rw [hd, hg] <;> linarith

/-- A run that lands after one recorded sample. -/
theorem descentLoop_run1 (P : DescParams) (n : ℕ) (st : DescState)
    (h0 : ¬ st.z < 0) (h1 : (rk4Step P st).z < 0) :
    descentLoop P (n + 2) st = .ok [st] := by
  simp only [descentLoop, if_neg h0, if_pos h1]

/-- A run that lands after two recorded samples. -/
theorem descentLoop_run2 (P : DescParams) (n : ℕ) (st : DescState)
    (h0 : ¬ st.z < 0) (h1 : ¬ (rk4Step P st).z < 0)
    (h2 : (rk4Step P (rk4Step P st)).z < 0) :
    descentLoop P (n + 3) st = .ok [st, rk4Step P st] := by
  simp only [descentLoop, if_neg h0, if_neg h1, if_pos h2]

/-- A run that lands after three recorded samples. -/
theorem descentLoop_run3 (P : DescParams) (n : ℕ) (st : DescState)
    (h0 : ¬ st.z < 0) (h1 : ¬ (rk4Step P st).z < 0)
    (h2 : ¬ (rk4Step P (rk4Step P st)).z < 0)
    (h3 : (rk4Step P (rk4Step P (rk4Step P st))).z < 0) :
    descentLoop P (n + 4) st = .ok [st, rk4Step P st, rk4Step P (rk4Step P st)] := by
  simp only [descentLoop, if_neg h0, if_neg h1, if_neg h2, if_pos h3]

/-- Concrete drag-free run from ground level with zero velocity: a single
sample. -/
theorem c6_run : descentLoop (⟨1, ⟨0, 1⟩, 0, 1 / 4⟩ : DescParams) maxIter ⟨0, 0, 0⟩ =
    .ok [⟨0, 0, 0⟩] := by
  show descentLoop paraDragFree maxIter ⟨0, 0, 0⟩ = .ok [⟨0, 0, 0⟩]
  rw [show maxIter = 9999998 + 2 from by norm_num [maxIter]]
  apply descentLoop_run1
  · norm_num
  · rw [rk4Step_dragFree]
    show (0 : ℝ) + delt * 0 - gPara * delt ^ 2 / 2 < 0
    norm_num [delt, gPara]

/-- Concrete evaluation of parachuteDescent on the drag-free ground-level
call with output timestep 1. -/
theorem c6_parachute_run :
    parachuteDescent 0 1 1 ⟨0, 1⟩ 0 (1 / 4) 0 = .ok ([0], [0], [0]) := by
  have hk : roundHalfEven ((1 : ℝ) / delt) = 5 := by
    rw [show ((1 : ℝ) / delt) = ((5 : ℤ) : ℝ) from by norm_num [delt]]
    exact roundHalfEven_intCast 5
  simp only [parachuteDescent, c6_run, hk]
  norm_num [downsample, everyKth]

/-- C6 (witness): the terminal-sample theorem applied to the concrete
drag-free call; the single recorded sample at ground level is returned
unchanged as the last entry of all three arrays. -/
theorem parachuteDescent_c6_witness :
    (0 : ℝ) ≤ 0 ∧
    (∀ st ∈ ([⟨0, 0, 0⟩] : List DescState), 0 ≤ st.z) ∧
    ([0] : List ℝ).getLast? = (([⟨0, 0, 0⟩] : List DescState).map DescState.t).getLast? ∧
    ([0] : List ℝ).getLast? = (([⟨0, 0, 0⟩] : List DescState).map DescState.z).getLast? ∧
    ([0] : List ℝ).getLast? = (([⟨0, 0, 0⟩] : List DescState).map DescState.s).getLast? :=
  ⟨le_refl 0, parachuteDescent_c6 0 1 1 ⟨0, 1⟩ 0 (1 / 4) 0 [⟨0, 0, 0⟩] [0] [0] [0]
    (le_refl 0) c6_run c6_parachute_run⟩

/-- In a sample list with pairwise non-increasing altitudes, the last
sample has the smallest altitude. -/
theorem pairwise_le_getLast (sts : List DescState)
    (hzp : sts.Pairwise (fun p q => q.z ≤ p.z)) (lastSt : DescState)
    (hlast : sts.getLast? = some lastSt) : ∀ x ∈ sts, lastSt.z ≤ x.z := by
  intro x hx
  rw [List.pairwise_iff_getElem] at hzp
  obtain ⟨i, hi, rfl⟩ := List.mem_iff_getElem.mp hx
  have hne : sts ≠ [] := by
    rintro rfl
    simp at hlast
  have hlen : sts.length - 1 < sts.length := by
    have := List.length_pos.mpr hne
    omega
  have hlast2 : lastSt = sts[sts.length - 1] := by
    rw [List.getLast?_eq_getLast sts hne, Option.some.injEq] at hlast
    rw [← hlast, List.getLast_eq_getElem]
  rcases Nat.lt_trichotomy i (sts.length - 1) with hlt | heq | hgt
  · have hp2 := hzp i (sts.length - 1) hi (by omega) hlt
    rw [← hlast2] at hp2
    exact hp2
  · rw [hlast2]
    rw [getElem_congr heq]
  · omega

/-- C7 (amended): for every call with requested output timestep above
0.1 s whose recorded integration samples all have nonpositive Runge-Kutta
stage vertical rates, the returned altitude array is monotonically
non-increasing. -/
theorem parachuteDescent_c7_amended (alt_start timestep payload_weight : ℝ)
    (pp : ParachuteParams) (area pdc v0 : ℝ) (sts : List DescState)
    (t a v : List ℝ)
    (hts : (1 : ℝ) / 10 < timestep)
    (hloop : descentLoop ⟨payload_weight, pp, area, pdc⟩ maxIter
      ⟨0, alt_start, v0⟩ = .ok sts)
    (hst : ∀ st ∈ sts, stageZNonpos ⟨payload_weight, pp, area, pdc⟩ st)
    (hres : parachuteDescent alt_start timestep payload_weight pp area pdc v0 =
      .ok (t, a, v)) :
    a.Pairwise (· ≥ ·) := by
  have hzp := descentLoop_z_pairwise _ maxIter _ sts hloop hst
  have hkpos : 0 < roundHalfEven (timestep / delt) := by
    apply roundHalfEven_pos_of
    rw [lt_div_iff (by norm_num [delt] : (0 : ℝ) < delt)]
    norm_num [delt]
    linarith
  cases hsts : sts.getLast? with
  | none =>
    have hnil : sts = [] := List.getLast?_eq_none.mp hsts
    subst hnil
    have ha : a = [] := by
      simp only [parachuteDescent, hloop, List.getLast?_nil, Except.ok.injEq,
        Prod.mk.injEq] at hres
      first
      | exact hres.2.1
      | exact hres.2.1.symm
    subst ha
    exact List.Pairwise.nil
  | some lastSt =>
    obtain ⟨final, hfinal, -, -, ha, -⟩ :=
      parachuteDescent_ok_final alt_start timestep payload_weight pp area pdc v0 sts
        lastSt t a v hloop hsts hres
    subst ha
    have hds : downsample (roundHalfEven (timestep / delt)) sts =
        everyKth (roundHalfEven (timestep / delt)).toNat sts := by
      rw [downsample, if_pos hkpos]
    have hsub : (downsample (roundHalfEven (timestep / delt)) sts).Sublist sts := by
      rw [hds]
      exact everyKth_sublist _ _
    have hsp : (downsample (roundHalfEven (timestep / delt)) sts).Pairwise
        (fun p q => q.z ≤ p.z) := hzp.sublist hsub
    rcases hfinal with rfl | rfl
    · exact List.pairwise_map.mpr (hsp.imp fun h => h)
    · rw [List.pairwise_map, List.pairwise_append]
      refine ⟨hsp, by simp, ?_⟩
      intro p hp q hq
      have hq2 : q = lastSt := by simpa using hq
      have hle := pairwise_le_getLast sts hzp lastSt hsts p (downsample_subset _ _ p hp)
      simpa [hq2, ge_iff_le] using hle

/-- Concrete drag-free ascent-then-ground run: starting at ground level
with upward velocity 6/5 the second sample is higher than the first. -/
theorem c7_run : descentLoop (⟨1, ⟨0, 1⟩, 0, 1 / 4⟩ : DescParams) maxIter ⟨0, 0, 6 / 5⟩ =
    .ok [⟨0, 0, 6 / 5⟩, ⟨1 / 5, 219 / 5000, -(381 / 500)⟩] := by
  show descentLoop paraDragFree maxIter ⟨0, 0, 6 / 5⟩ =
    .ok [⟨0, 0, 6 / 5⟩, ⟨1 / 5, 219 / 5000, -(381 / 500)⟩]
  have h1 : rk4Step paraDragFree ⟨0, 0, 6 / 5⟩ = ⟨1 / 5, 219 / 5000, -(381 / 500)⟩ := by
    simp only [rk4Step_dragFree, DescState.mk.injEq]
    norm_num [delt, gPara]
  rw [show maxIter = 9999997 + 3 from by norm_num [maxIter]]
  rw [show (.ok [⟨0, 0, 6 / 5⟩, ⟨1 / 5, 219 / 5000, -(381 / 500)⟩] :
      Except DescError (List DescState)) =
    .ok [⟨0, 0, 6 / 5⟩, rk4Step paraDragFree ⟨0, 0, 6 / 5⟩] from by rw [h1]]
  apply descentLoop_run2
  · norm_num
  · rw [h1]
    norm_num
  · rw [h1, rk4Step_dragFree]
    show (219 / 5000 : ℝ) + delt * (-(381 / 500)) - gPara * delt ^ 2 / 2 < 0
    norm_num [delt, gPara]

/-- Concrete evaluation of parachuteDescent on the upward-start drag-free
call with output timestep 0.2. -/
theorem c7_parachute_run :
    parachuteDescent 0 (1 / 5) 1 ⟨0, 1⟩ 0 (1 / 4) (6 / 5) =
      .ok ([0, 1 / 5], [0, 219 / 5000], [6 / 5, -(381 / 500)]) := by
  have hk : roundHalfEven ((1 / 5 : ℝ) / delt) = 1 := by
    rw [show ((1 / 5 : ℝ) / delt) = ((1 : ℤ) : ℝ) from by norm_num [delt]]
    exact roundHalfEven_intCast 1
  simp only [parachuteDescent, c7_run, hk]
  norm_num [downsample, everyKth]

/-- C7 (counterexample): a call of the descent simulator with positive
initial velocity 1.2 m per s whose returned altitude array is increasing,
refuting the unconditional monotonicity claim. -/
theorem parachuteDescent_c7_cex :
    ¬ (∀ t a v : List ℝ,
        parachuteDescent 0 (1 / 5) 1 ⟨0, 1⟩ 0 (1 / 4) (6 / 5) = .ok (t, a, v) →
        a.Pairwise (· ≥ ·)) := by
  intro hall
  have h := hall [0, 1 / 5] [0, 219 / 5000] [6 / 5, -(381 / 500)] c7_parachute_run
  rw [List.pairwise_cons] at h
  have h2 := h.1 (219 / 5000) (by simp)
  norm_num at h2

/-- C7 (witness): the amended monotonicity theorem applied to the concrete
drag-free ground-level call, whose single stage-rate condition holds. -/
theorem parachuteDescent_c7_witness :
    ((1 : ℝ) / 10 < 1) ∧ ([0] : List ℝ).Pairwise (· ≥ ·) :=
  ⟨by norm_num, parachuteDescent_c7_amended 0 1 1 ⟨0, 1⟩ 0 (1 / 4) 0 [⟨0, 0, 0⟩]
    [0] [0] [0] (by norm_num) c6_run
    (by
      intro st hst
      have h2 : st = (⟨0, 0, 0⟩ : DescState) := by simpa using hst
      subst h2
      exact stageZNonpos_dragFree ⟨0, 0, 0⟩ le_rfl)
    c6_parachute_run⟩

/-- Concrete drag-free run from 1 m: three recorded samples. -/
theorem c10_run : descentLoop (⟨1, ⟨0, 1⟩, 0, 1 / 4⟩ : DescParams) maxIter ⟨0, 1, 0⟩ =
    .ok [⟨0, 1, 0⟩, ⟨1 / 5, 4019 / 5000, -(981 / 500)⟩, ⟨2 / 5, 269 / 1250, -(981 / 250)⟩] := by
  show descentLoop paraDragFree maxIter ⟨0, 1, 0⟩ =
    .ok [⟨0, 1, 0⟩, ⟨1 / 5, 4019 / 5000, -(981 / 500)⟩, ⟨2 / 5, 269 / 1250, -(981 / 250)⟩]
  have h1 : rk4Step paraDragFree ⟨0, 1, 0⟩ = ⟨1 / 5, 4019 / 5000, -(981 / 500)⟩ := by
    simp only [rk4Step_dragFree, DescState.mk.injEq]
    norm_num [delt, gPara]
  have h2 : rk4Step paraDragFree ⟨1 / 5, 4019 / 5000, -(981 / 500)⟩ =
      ⟨2 / 5, 269 / 1250, -(981 / 250)⟩ := by
    simp only [rk4Step_dragFree, DescState.mk.injEq]
    norm_num [delt, gPara]
  rw [show maxIter = 9999996 + 4 from by norm_num [maxIter]]
  have h3 := descentLoop_run3 paraDragFree 9999996 ⟨0, 1, 0⟩
    (by norm_num)
    (by rw [h1]; norm_num)
    (by rw [h1, h2]; norm_num)
    (by
      rw [h1, h2, rk4Step_dragFree]
      show (269 / 1250 : ℝ) + delt * (-(981 / 250)) - gPara * delt ^ 2 / 2 < 0
      norm_num [delt, gPara])
  rw [h1, h2] at h3
  exact h3

/-- C10 (counterexample): at the requested output timestep of exactly
0.1 s, the ratio to the internal 0.2 s step rounds (half to even) to zero
and the call fails with the zero-slice-step error, although the claim
asserts the failure cannot occur for timesteps of at least 0.1 s. -/
theorem parachuteDescent_c10_cex :
    ((1 : ℝ) / 10 ≥ 1 / 10) ∧
    parachuteDescent 1 (1 / 10) 1 ⟨0, 1⟩ 0 (1 / 4) 0 = .error .sliceStepZero := by
  refine ⟨le_refl _, ?_⟩
  have hk : roundHalfEven ((1 / 10 : ℝ) / delt) = 0 := by
    rw [roundHalfEven_eq_zero_iff]
    constructor <;> norm_num [delt]
  simp only [parachuteDescent, c10_run, hk]
  norm_num

/-- C10 (amended): for a ground-reaching start at or above ground, the
descent simulator fails with the zero-slice-step error exactly when the
requested output timestep lies in the closed interval from -0.1 s to
0.1 s; above 0.1 s the downsampling step is positive and the failure
cannot occur (and below -0.1 s the step is negative, which Python slicing
accepts). -/
theorem parachuteDescent_c10_amended (alt_start timestep payload_weight : ℝ)
    (pp : ParachuteParams) (area pdc v0 : ℝ) (sts : List DescState)
    (h0 : 0 ≤ alt_start)
    (hloop : descentLoop ⟨payload_weight, pp, area, pdc⟩ maxIter
      ⟨0, alt_start, v0⟩ = .ok sts) :
    (parachuteDescent alt_start timestep payload_weight pp area pdc v0 =
        .error .sliceStepZero ↔
      (-(1 / 10) ≤ timestep ∧ timestep ≤ 1 / 10)) := by
  have hne : sts ≠ [] := by
    rw [show maxIter = 9999999 + 1 from by norm_num [maxIter]] at hloop
    obtain ⟨rest, rfl, -⟩ := descentLoop_cons _ _ _ _ hloop (not_lt.mpr h0)
    simp
  have hlast := List.getLast?_eq_getLast sts hne
  have hwin : roundHalfEven (timestep / delt) = 0 ↔
      (-(1 / 10) ≤ timestep ∧ timestep ≤ 1 / 10) := by
    rw [roundHalfEven_eq_zero_iff]
    have hdiv : timestep / delt = 5 * timestep := by
      rw [show (delt : ℝ) = 1 / 5 from by norm_num [delt]]
      ring
    rw [hdiv]
    constructor <;> rintro ⟨ha, hb⟩ <;> constructor <;> linarith
  by_cases hk : roundHalfEven (timestep / delt) = 0
  · have hcode : parachuteDescent alt_start timestep payload_weight pp area pdc v0 =
        .error .sliceStepZero := by
      simp only [parachuteDescent, hloop, hlast, if_pos hk]
    exact iff_of_true hcode (hwin.mp hk)
  · refine iff_of_false ?_ (fun hw => hk (hwin.mpr hw))
    simp only [parachuteDescent, hloop, hlast, if_neg hk]
    split_ifs <;> simp

/-- C10 (witness): the amended theorem applied at timestep 0.05 s on the
concrete drag-free run from 1 m, giving the zero-slice-step error. -/
theorem parachuteDescent_c10_witness :
    (0 : ℝ) ≤ 1 ∧
    parachuteDescent 1 (1 / 20) 1 ⟨0, 1⟩ 0 (1 / 4) 0 = .error .sliceStepZero :=
  ⟨by norm_num,
    (parachuteDescent_c10_amended 1 (1 / 20) 1 ⟨0, 1⟩ 0 (1 / 4) 0
      [⟨0, 1, 0⟩, ⟨1 / 5, 4019 / 5000, -(981 / 500)⟩, ⟨2 / 5, 269 / 1250, -(981 / 250)⟩]
      (by norm_num) c10_run).mpr ⟨by norm_num, by norm_num⟩⟩

end BalloonOperator
